import Mathlib

/-!
# Verification of the tetris-game core engine

Shallow embedding of the game-state engine of `src/main.rs`: piece catalog,
active piece, board, collision detection, locking, line clearing, scoring and
level/gravity derivation.  Wall-clock time (`Instant` fields `start_time` and
`last_drop_instant`) is abstracted: `Game.step` receives the elapsed milliseconds
since the last gravity drop as an explicit argument, and the timer resets are not
part of the modelled state.  The thread-local random generator is modelled as an
injectable stream (list) of piece kinds, consumed from the front.
-/

namespace Tetris

/-- Board dimensions (classic Tetris is 10x20). `const BOARD_WIDTH: usize = 10;` -/
def BOARD_WIDTH : Nat := 10

/-- `const BOARD_HEIGHT: usize = 20;` -/
def BOARD_HEIGHT : Nat := 20

/-- The seven piece kinds (`enum BlockType`). -/
inductive BlockType where
  | I | O | T | S | Z | J | L
deriving DecidableEq, Fintype

/-- A Tetromino has rotations represented as 4x4 grids (flattened, row-major;
nonzero = block), mirroring `struct Tetromino`. -/
structure Tetromino where
  kind : BlockType
  rotations : List (List Nat)

/-- `Tetromino::new`: the static rotation tables, transcribed verbatim. -/
def Tetromino.new (kind : BlockType) : Tetromino :=
  let rotations :=
    match kind with
    | BlockType.I =>
        [[0, 0, 0, 0, 1, 1, 1, 1, 0, 0, 0, 0, 0, 0, 0, 0],
         [0, 0, 1, 0, 0, 0, 1, 0, 0, 0, 1, 0, 0, 0, 1, 0]]
    | BlockType.O =>
        [[0, 1, 1, 0, 0, 1, 1, 0, 0, 0, 0, 0, 0, 0, 0, 0]]
    | BlockType.T =>
        [[0, 1, 0, 0, 1, 1, 1, 0, 0, 0, 0, 0, 0, 0, 0, 0],
         [0, 1, 0, 0, 0, 1, 1, 0, 0, 1, 0, 0, 0, 0, 0, 0],
         [0, 0, 0, 0, 1, 1, 1, 0, 0, 1, 0, 0, 0, 0, 0, 0],
         [0, 1, 0, 0, 1, 1, 0, 0, 0, 1, 0, 0, 0, 0, 0, 0]]
    | BlockType.S =>
        [[0, 1, 1, 0, 1, 1, 0, 0, 0, 0, 0, 0, 0, 0, 0, 0],
         [0, 1, 0, 0, 0, 1, 1, 0, 0, 0, 1, 0, 0, 0, 0, 0]]
    | BlockType.Z =>
        [[1, 1, 0, 0, 0, 1, 1, 0, 0, 0, 0, 0, 0, 0, 0, 0],
         [0, 0, 1, 0, 0, 1, 1, 0, 0, 1, 0, 0, 0, 0, 0, 0]]
    | BlockType.J =>
        [[1, 0, 0, 0, 1, 1, 1, 0, 0, 0, 0, 0, 0, 0, 0, 0],
         [0, 1, 1, 0, 0, 1, 0, 0, 0, 1, 0, 0, 0, 0, 0, 0],
         [0, 0, 0, 0, 1, 1, 1, 0, 0, 0, 1, 0, 0, 0, 0, 0],
         [0, 1, 0, 0, 0, 1, 0, 0, 1, 1, 0, 0, 0, 0, 0, 0]]
    | BlockType.L =>
        [[0, 0, 1, 0, 1, 1, 1, 0, 0, 0, 0, 0, 0, 0, 0, 0],
         [0, 1, 0, 0, 0, 1, 0, 0, 0, 1, 1, 0, 0, 0, 0, 0],
         [0, 0, 0, 0, 1, 1, 1, 0, 1, 0, 0, 0, 0, 0, 0, 0],
         [1, 1, 0, 0, 0, 1, 0, 0, 0, 1, 0, 0, 0, 0, 0, 0]]
  { kind := kind, rotations := rotations }

/-- `self.tetro.rotations.len()` for a piece of kind `k` (the Rust `ActivePiece`
stores the whole `Tetromino`, which is determined by its kind). -/
def rotCount (k : BlockType) : Nat := (Tetromino.new k).rotations.length

/-- Active piece in play (`struct ActivePiece`).  The stored `tetro : Tetromino`
is a pure function of `kind`, so only the kind is kept. -/
structure ActivePiece where
  kind : BlockType
  rotation : Nat
  x : Int
  y : Int
deriving DecidableEq

/-- `ActivePiece::new`: spawn near top center, `x = BOARD_WIDTH/2 - 2`, `y = -1`
(allow spawn partially above the visible board). -/
def ActivePiece.new (kind : BlockType) : ActivePiece :=
  { kind := kind, rotation := 0, x := (BOARD_WIDTH : Int) / 2 - 2, y := -1 }

/-- The inner loop of `ActivePiece::cells`: the in-grid coordinates `(bx, by)`
of the occupied cells of a flattened 4x4 grid, `by` outer, `bx` inner. -/
def gridCells (grid : List Nat) : List (Nat × Nat) :=
  (List.range 4).flatMap fun gy =>
    (List.range 4).filterMap fun gx =>
      if grid.getD (gy * 4 + gx) 0 ≠ 0 then some (gx, gy) else none

/-- Occupied in-grid coordinates of rotation state `r` of kind `k`. -/
def pieceOffsets (k : BlockType) (r : Nat) : List (Nat × Nat) :=
  gridCells ((Tetromino.new k).rotations.getD r [])

/-- `ActivePiece::cells`: the grid is `rotations[rotation % rotations.len()]`;
each occupied `(bx, by)` yields board coordinate `(x + bx, y + by)`. -/
def ActivePiece.cells (p : ActivePiece) : List (Int × Int) :=
  (pieceOffsets p.kind (p.rotation % rotCount p.kind)).map
    fun o => (p.x + (o.1 : Int), p.y + (o.2 : Int))

/-- `ActivePiece::rotate_cw`: `rotation = (rotation + 1) % rotations.len()`. -/
def ActivePiece.rotate_cw (p : ActivePiece) : ActivePiece :=
  { p with rotation := (p.rotation + 1) % rotCount p.kind }

/-- `ActivePiece::rotate_ccw`: wraps at 0. -/
def ActivePiece.rotate_ccw (p : ActivePiece) : ActivePiece :=
  if p.rotation = 0 then { p with rotation := rotCount p.kind - 1 }
  else { p with rotation := p.rotation - 1 }

/-- The board: 20 rows of 10 cells, each `Option BlockType`. -/
abbrev Board := List (List (Option BlockType))

/-- A row of `BOARD_WIDTH` `None` cells (a row of the empty `new_board`). -/
def emptyRow : List (Option BlockType) := List.replicate BOARD_WIDTH none

/-- The full-row test of `clear_full_lines`: `full` stays true iff no cell of the
row `is_none()`, i.e. every cell is settled. -/
def isFullRow (row : List (Option BlockType)) : Bool :=
  row.all fun c => c.isSome

/-- The scan loop of `clear_full_lines`, processed bottom-to-top: returns the
non-full rows in their original top-to-bottom order, and the number removed. -/
def removeFull : Board → Board × Nat
  | [] => ([], 0)
  | r :: rest =>
      let p := removeFull rest
      if isFullRow r then (p.1, p.2 + 1) else (r :: p.1, p.2)

/-- The board-level result of `clear_full_lines`: the kept rows land at the
bottom of the fresh `new_board` (positions `new_row = 19, 18, ...`), so the
removed rows reappear as empty rows at the top. -/
def clearBoard (b : Board) : Board × Nat :=
  let p := removeFull b
  (List.replicate p.2 emptyRow ++ p.1, p.2)

/-- Number of settled (non-empty) cells in a row. -/
def rowCount (r : List (Option BlockType)) : Nat :=
  (r.filter fun c => c.isSome).length

/-- Total settled-cell count of a board. -/
def cellCount (b : Board) : Nat := (b.map rowCount).sum

/-- Game state (`struct Game`).  `rng` models the thread-local generator as an
injectable stream of kinds; the two `Instant` fields are not modelled (`step`
takes the elapsed time as an argument instead). -/
structure Game where
  board : Board
  current : ActivePiece
  next : BlockType
  score : Nat
  level : Nat
  lines_cleared : Nat
  paused : Bool
  game_over : Bool
  gravity_interval : Nat
  rng : List BlockType
deriving DecidableEq

/-- `Game::interval_for_level`: base 700ms, reduce by 50ms per level above 1,
clamped below at 60ms (`max(ms, 60)`), in `i32` arithmetic (modelled on `Int`;
the realistic level range is far from `i32` overflow). -/
def interval_for_level (level : Nat) : Nat :=
  let base_ms : Int := 700
  let ms : Int := base_ms - ((level : Int) - 1) * 50
  (max ms 60).toNat

/-- Board-cell lookup used by `check_collision` (only reached with the indices
already known to be in range, so the out-of-range default is never consulted). -/
def cellAt (b : Board) (ny nx : Int) : Option BlockType :=
  (b.getD ny.toNat []).getD nx.toNat none

/-- `Game::check_collision`: any cell of the piece translated by `(dx, dy)` that
leaves `[0, BOARD_WIDTH)` horizontally, reaches `y ≥ BOARD_HEIGHT`, or (when
`y ≥ 0`) lands on a settled board cell. -/
def Game.check_collision (g : Game) (piece : ActivePiece) (dx dy : Int) : Bool :=
  piece.cells.any fun c =>
    let nx := c.1 + dx
    let ny := c.2 + dy
    decide (nx < 0) || decide ((BOARD_WIDTH : Int) ≤ nx) ||
      decide ((BOARD_HEIGHT : Int) ≤ ny) ||
      (decide (0 ≤ ny) && (cellAt g.board ny nx).isSome)

/-- `Game::spawn_next`: promote `next` to `current`, draw a fresh `next` from the
randomness stream, and set `game_over` if the spawn position already collides. -/
def Game.spawn_next (g : Game) : Game :=
  let g' := { g with
    current := ActivePiece.new g.next,
    next := g.rng.headD BlockType.I,
    rng := g.rng.tail }
  if Game.check_collision g' g'.current 0 0 then { g' with game_over := true } else g'

/-- The write loop of `Game::lock_piece`: each cell with `y` in `[0, height)` and
`x` in `[0, width)` is written with the piece kind; off-board cells are dropped. -/
def writeCells (b : Board) (cells : List (Int × Int)) (kind : BlockType) : Board :=
  cells.foldl
    (fun acc c =>
      if 0 ≤ c.2 ∧ c.2 < (BOARD_HEIGHT : Int) ∧ 0 ≤ c.1 ∧ c.1 < (BOARD_WIDTH : Int) then
        acc.set c.2.toNat ((acc.getD c.2.toNat []).set c.1.toNat (some kind))
      else acc)
    b

/-- `Game::clear_full_lines` at the game level: replace the board, award points,
update `lines_cleared`, and recompute level and gravity when the level changes —
all of it only when at least one row was removed. -/
def Game.clear_full_lines (g : Game) : Game :=
  let res := clearBoard g.board
  let removed := res.2
  if 0 < removed then
    let points :=
      (match removed with
       | 1 => 100
       | 2 => 300
       | 3 => 500
       | _ => 800) * g.level
    let lines := g.lines_cleared + removed
    let new_level := lines / 10 + 1
    if new_level ≠ g.level then
      { g with
          board := res.1,
          score := g.score + points,
          lines_cleared := lines,
          level := new_level,
          gravity_interval := interval_for_level new_level }
    else
      { g with board := res.1, score := g.score + points, lines_cleared := lines }
  else g

/-- `Game::lock_piece`: write the current piece into the board, clear full lines,
then spawn the next piece.  (The `last_drop_instant` reset is wall-clock state,
not modelled.) -/
def Game.lock_piece (g : Game) : Game :=
  Game.spawn_next
    (Game.clear_full_lines
      { g with board := writeCells g.board g.current.cells g.current.kind })

/-- `Game::move_left`. -/
def Game.move_left (g : Game) : Game :=
  if Game.check_collision g g.current (-1) 0 = false then
    { g with current := { g.current with x := g.current.x - 1 } }
  else g

/-- `Game::move_right`. -/
def Game.move_right (g : Game) : Game :=
  if Game.check_collision g g.current 1 0 = false then
    { g with current := { g.current with x := g.current.x + 1 } }
  else g

/-- `Game::move_down` (soft drop): descend one row and score 1, or lock. -/
def Game.move_down (g : Game) : Game :=
  if Game.check_collision g g.current 0 1 = false then
    { g with
        current := { g.current with y := g.current.y + 1 },
        score := g.score + 1 }
  else
    Game.lock_piece g

/-- The wall-kick offsets tried by `rotate_cw`/`rotate_ccw`, in source order. -/
def kicks : List (Int × Int) := [(0, 0), (-1, 0), (1, 0), (0, -1)]

/-- `Game::rotate_cw`: rotate a scratch copy, commit it together with the first
kick offset that does not collide; keep the state unchanged if all four fail. -/
def Game.rotate_cw (g : Game) : Game :=
  let t := ActivePiece.rotate_cw g.current
  match kicks.find? (fun k => !(Game.check_collision g t k.1 k.2)) with
  | some k => { g with current := { t with x := t.x + k.1, y := t.y + k.2 } }
  | none => g

/-- `Game::rotate_ccw`: same trial sequence with the reverse rotation. -/
def Game.rotate_ccw (g : Game) : Game :=
  let t := ActivePiece.rotate_ccw g.current
  match kicks.find? (fun k => !(Game.check_collision g t k.1 k.2)) with
  | some k => { g with current := { t with x := t.x + k.1, y := t.y + k.2 } }
  | none => g

/-- `Game::step` (gravity tick): no-op when paused or game over; when the
gravity interval has elapsed, descend one row or lock.  `elapsed` stands for
`self.last_drop_instant.elapsed()` in milliseconds; the timer reset is
wall-clock state and not modelled. -/
def Game.step (g : Game) (elapsed : Nat) : Game :=
  if g.paused || g.game_over then g
  else if g.gravity_interval ≤ elapsed then
    if Game.check_collision g g.current 0 1 = false then
      { g with current := { g.current with y := g.current.y + 1 } }
    else
      Game.lock_piece g
  else g

/-- The descent loop of `Game::hard_drop`: `while !check_collision(current,0,1)
{ current.y += 1 }`.  Terminates because every catalog piece has occupied cells,
so a collision-free downward step keeps the piece above the floor. -/
def hardDropPiece (g : Game) (p : ActivePiece) : ActivePiece :=
  if h : Game.check_collision g p 0 1 = false then
    hardDropPiece g { p with y := p.y + 1 }
  else p
termination_by ((BOARD_HEIGHT : Int) - p.y).toNat
decreasing_by
  have hcount : ∀ k : BlockType, ∀ r ∈ List.range (rotCount k),
      (pieceOffsets k r).length = 4 := by decide
  have hpos : 0 < rotCount p.kind := by cases p.kind <;> decide
  have hmem : p.rotation % rotCount p.kind ∈ List.range (rotCount p.kind) :=
    List.mem_range.mpr (Nat.mod_lt _ hpos)
  have h4 := hcount p.kind _ hmem
  have hne : p.cells ≠ [] := by
    intro hnil
    have hlen : p.cells.length = 0 := by rw [hnil]; rfl
    rw [ActivePiece.cells, List.length_map, h4] at hlen
    exact absurd hlen (by decide)
  obtain ⟨c, hc⟩ := List.exists_mem_of_ne_nil _ hne
  rw [Game.check_collision] at h
  have hcfalse := List.any_eq_false.mp h c hc
  simp only [Bool.or_eq_true, decide_eq_true_eq, Bool.and_eq_true,
    not_or, not_and] at hcfalse
  have hclow : ¬ ((BOARD_HEIGHT : Int) ≤ c.2 + 1) := hcfalse.1.2
  rw [ActivePiece.cells] at hc
  obtain ⟨o, -, hoc⟩ := List.mem_map.mp hc
  have hy : p.y + (o.2 : Int) + 1 < (BOARD_HEIGHT : Int) := by
    have h2 : c.2 = p.y + (o.2 : Int) := by rw [← hoc]
    omega
  show ((BOARD_HEIGHT : Int) - (p.y + 1)).toNat < ((BOARD_HEIGHT : Int) - p.y).toNat
  simp only [BOARD_HEIGHT] at hy ⊢
  omega

/-- `Game::hard_drop`: fast-forward the piece to its resting position, then
lock. -/
def Game.hard_drop (g : Game) : Game :=
  Game.lock_piece { g with current := hardDropPiece g g.current }

/-- `Game::new`: fresh empty board, score 0, level 1, gravity interval for
level 1; the first two draws of the randomness stream become `next` and the
current kind, in source order. -/
def Game.new (stream : List BlockType) : Game :=
  let next := stream.headD BlockType.I
  let current_kind := stream.tail.headD BlockType.I
  { board := List.replicate BOARD_HEIGHT (List.replicate BOARD_WIDTH none),
    current := ActivePiece.new current_kind,
    next := next,
    score := 0,
    level := 1,
    lines_cleared := 0,
    paused := false,
    game_over := false,
    gravity_interval := interval_for_level 1,
    rng := stream.tail.tail }

/-- `Game::reset`: `*self = Game::new()`, drawing from the remaining stream. -/
def Game.reset (g : Game) : Game := Game.new g.rng

/-- The `KeyCode::Left` handler of the main event loop: the move is dispatched
only when neither paused nor game over. -/
def onMoveLeft (g : Game) : Game :=
  if !g.paused && !g.game_over then Game.move_left g else g

/-- The `KeyCode::Right` handler. -/
def onMoveRight (g : Game) : Game :=
  if !g.paused && !g.game_over then Game.move_right g else g

/-- The `KeyCode::Down` handler (the gravity-timer reset it also performs is
wall-clock state, not modelled). -/
def onMoveDown (g : Game) : Game :=
  if !g.paused && !g.game_over then Game.move_down g else g

/-- The `KeyCode::Up` handler. -/
def onRotateCW (g : Game) : Game :=
  if !g.paused && !g.game_over then Game.rotate_cw g else g

/-- The `'z'` handler. -/
def onRotateCCW (g : Game) : Game :=
  if !g.paused && !g.game_over then Game.rotate_ccw g else g

/-- The space-bar handler. -/
def onHardDrop (g : Game) : Game :=
  if !g.paused && !g.game_over then Game.hard_drop g else g

/-- The `'p'` handler: `game.paused = !game.paused`, in any state. -/
def onPauseToggle (g : Game) : Game := { g with paused := !g.paused }

/-- The `'r'` handler: both branches call `game.reset()`, in any state. -/
def onReset (g : Game) : Game := Game.reset g

/-- The level/lines relation maintained by the engine: level is derived from the
total lines cleared.  Holds for `Game.new` and is preserved by every operation. -/
@[reducible] def LinesLevelInv (g : Game) : Prop :=
  g.level = g.lines_cleared / 10 + 1

/-- The three counters the spec declares monotone. -/
@[reducible] def monoLe (g g' : Game) : Prop :=
  g.score ≤ g'.score ∧ g.lines_cleared ≤ g'.lines_cleared ∧ g.level ≤ g'.level

/-! Concrete fixtures used to instantiate the theorems. -/

/-- A completely settled row. -/
def fullRow : List (Option BlockType) := List.replicate BOARD_WIDTH (some BlockType.I)

/-- The empty board. -/
def emptyBoard : Board := List.replicate BOARD_HEIGHT emptyRow

/-- A row with two settled cells. -/
def rowTwo : List (Option BlockType) :=
  [some BlockType.T, none, none, none, none, none, none, none, none, some BlockType.L]

/-- A board with two full rows interleaved with partial rows. -/
def wBoard : Board := List.replicate 16 emptyRow ++ [fullRow, rowTwo, fullRow, rowTwo]

/-- Bottom row filled in columns 0–5. -/
def rowSix : List (Option BlockType) :=
  [some BlockType.J, some BlockType.J, some BlockType.J, some BlockType.J,
   some BlockType.J, some BlockType.J, none, none, none, none]

/-- A row filled in columns 0–8, leaving column 9 open. -/
def rowNine : List (Option BlockType) :=
  [some BlockType.Z, some BlockType.Z, some BlockType.Z, some BlockType.Z,
   some BlockType.Z, some BlockType.Z, some BlockType.Z, some BlockType.Z,
   some BlockType.Z, none]

/-- Level-1 game whose horizontal I piece is about to complete the bottom row. -/
def gScore1 : Game :=
  { board := List.replicate 19 emptyRow ++ [rowSix],
    current := { kind := BlockType.I, rotation := 0, x := 6, y := 18 },
    next := BlockType.T, score := 0, level := 1, lines_cleared := 0,
    paused := false, game_over := false, gravity_interval := 700, rng := [] }

/-- Level-1 game whose vertical I piece is about to complete four rows at once. -/
def gScore4 : Game :=
  { board := List.replicate 16 emptyRow ++ [rowNine, rowNine, rowNine, rowNine],
    current := { kind := BlockType.I, rotation := 1, x := 7, y := 16 },
    next := BlockType.T, score := 0, level := 1, lines_cleared := 0,
    paused := false, game_over := false, gravity_interval := 700, rng := [] }

/-- Like `gScore1` but with 9 lines already cleared, so the next clear levels up. -/
def gLevel : Game := { gScore1 with lines_cleared := 9 }

/-- A paused game. -/
def gPaused : Game :=
  { board := emptyBoard, current := ActivePiece.new BlockType.T, next := BlockType.I,
    score := 5, level := 1, lines_cleared := 3, paused := true, game_over := false,
    gravity_interval := 700, rng := [BlockType.S] }

/-- A game whose piece can freely descend. -/
def gFree : Game :=
  { board := emptyBoard,
    current := { kind := BlockType.T, rotation := 0, x := 3, y := 0 },
    next := BlockType.I, score := 0, level := 1, lines_cleared := 0,
    paused := false, game_over := false, gravity_interval := 700, rng := [] }

/-- A game whose piece rests on the floor. -/
def gBlocked : Game :=
  { gFree with current := { kind := BlockType.T, rotation := 0, x := 3, y := 18 } }

/-- A game whose O piece floats entirely above the visible board. -/
def gAbove : Game :=
  { gFree with current := { kind := BlockType.O, rotation := 0, x := 4, y := -3 } }

/-! ## Theorems -/

/-- Claim C2, counterexample: the claim asserts every level of 13 or more yields
60ms, but `interval_for_level 13 = max (700 - 12 * 50) 60 = 100`, not 60. -/
theorem interval_level13_counterexample :
    interval_for_level 13 = 100 ∧ interval_for_level 13 ≠ 60 := by
  constructor <;> decide

/-- Claim C2 (amended): the gravity interval equals 700ms minus 50ms per level
above 1, floored at 60ms; level 1 yields 700ms, and every level of 14 or more
(not 13) yields 60ms. -/
theorem interval_for_level_spec :
    interval_for_level 1 = 700 ∧
    (∀ level : Nat,
        interval_for_level level = (max (700 - ((level : Int) - 1) * 50) 60).toNat) ∧
    (∀ level : Nat, 14 ≤ level → interval_for_level level = 60) := by
  refine ⟨by decide, fun level => rfl, fun level h => ?_⟩
  show (max (700 - ((level : Int) - 1) * 50) 60).toNat = 60
  have hm : (14 : Int) ≤ (level : Int) := by exact_mod_cast h
  rw [max_eq_right (by omega : (700 : Int) - ((level : Int) - 1) * 50 ≤ 60)]
  rfl

/-- Witness for C2's amended claim at level 14. -/
theorem interval_for_level_spec_wit : interval_for_level 14 = 60 :=
  interval_for_level_spec.2.2 14 (by decide)

/-- Claim C10: every rotation grid of every kind has exactly 4 occupied cells,
and `cells` always returns 4 distinct board coordinates. -/
theorem four_cells_spec :
    (∀ k : BlockType, ∀ grid ∈ (Tetromino.new k).rotations,
        (grid.countP fun c => c != 0) = 4) ∧
    (∀ p : ActivePiece, p.cells.length = 4 ∧ p.cells.Nodup) := by
  constructor
  · decide
  · intro p
    have hoff : ∀ k : BlockType, ∀ r ∈ List.range (rotCount k),
        (pieceOffsets k r).length = 4 ∧ (pieceOffsets k r).Nodup := by decide
    have hpos : 0 < rotCount p.kind := by cases p.kind <;> decide
    have hmem : p.rotation % rotCount p.kind ∈ List.range (rotCount p.kind) :=
      List.mem_range.mpr (Nat.mod_lt _ hpos)
    obtain ⟨hlen, hnd⟩ := hoff p.kind _ hmem
    constructor
    · rw [ActivePiece.cells, List.length_map, hlen]
    · refine List.Nodup.map ?_ hnd
      intro a b hab
      have h1 : p.x + (a.1 : Int) = p.x + (b.1 : Int) := congrArg Prod.fst hab
      have h2 : p.y + (a.2 : Int) = p.y + (b.2 : Int) := congrArg Prod.snd hab
      have ha : a.1 = b.1 := by omega
      have hb : a.2 = b.2 := by omega
      cases a; cases b
      simp_all

/-- Witness for C10 at the T kind's first grid and a concrete piece. -/
theorem four_cells_spec_wit :
    (([0, 1, 0, 0, 1, 1, 1, 0, 0, 0, 0, 0, 0, 0, 0, 0] : List Nat).countP
        fun c => c != 0) = 4 ∧
    (ActivePiece.new BlockType.T).cells.length = 4 ∧
    (ActivePiece.new BlockType.T).cells.Nodup :=
  ⟨four_cells_spec.1 BlockType.T _ (by decide),
   four_cells_spec.2 (ActivePiece.new BlockType.T)⟩

/-- Claim C6: `check_collision` is true iff some translated cell is outside
`[0, 10)` horizontally, at or past the floor, or (when its translated row is
non-negative) on a settled cell; and a piece whose translated cells are all
above the board and horizontally in bounds never collides. -/
theorem check_collision_spec (g : Game) (p : ActivePiece) (dx dy : Int) :
    (Game.check_collision g p dx dy = true ↔
      ∃ c ∈ p.cells,
        (c.1 + dx < 0 ∨ (BOARD_WIDTH : Int) ≤ c.1 + dx) ∨
        (BOARD_HEIGHT : Int) ≤ c.2 + dy ∨
        (0 ≤ c.2 + dy ∧ (cellAt g.board (c.2 + dy) (c.1 + dx)).isSome = true)) ∧
    ((∀ c ∈ p.cells, c.2 + dy < 0) →
      (∀ c ∈ p.cells, 0 ≤ c.1 + dx ∧ c.1 + dx < (BOARD_WIDTH : Int)) →
      Game.check_collision g p dx dy = false) := by
  have hmain : Game.check_collision g p dx dy = true ↔
      ∃ c ∈ p.cells,
        (c.1 + dx < 0 ∨ (BOARD_WIDTH : Int) ≤ c.1 + dx) ∨
        (BOARD_HEIGHT : Int) ≤ c.2 + dy ∨
        (0 ≤ c.2 + dy ∧ (cellAt g.board (c.2 + dy) (c.1 + dx)).isSome = true) := by
    rw [Game.check_collision, List.any_eq_true]
    constructor
    · rintro ⟨c, hc, hpred⟩
      refine ⟨c, hc, ?_⟩
      simp only [Bool.or_eq_true, decide_eq_true_eq, Bool.and_eq_true] at hpred
      tauto
    · rintro ⟨c, hc, hor⟩
      refine ⟨c, hc, ?_⟩
      simp only [Bool.or_eq_true, decide_eq_true_eq, Bool.and_eq_true]
      tauto
  refine ⟨hmain, fun hy hx => ?_⟩
  rcases hcc : Game.check_collision g p dx dy with _ | _
  · rfl
  · exfalso
    obtain ⟨c, hc, hor⟩ := hmain.mp hcc
    have h1 := hy c hc
    have h2 := hx c hc
    rcases hor with h | h | h
    · omega
    · omega
    · omega

/-- Witness for C6: the above-board O piece of `gAbove` does not collide. -/
theorem check_collision_spec_wit :
    Game.check_collision gAbove gAbove.current 0 0 = false :=
  (check_collision_spec gAbove gAbove.current 0 0).2 (by decide) (by decide)

/-- The scan keeps exactly the non-full rows, in order. -/
theorem removeFull_fst (b : Board) :
    (removeFull b).1 = b.filter fun r => !(isFullRow r) := by
  induction b with
  | nil => rfl
  | cons r rest ih =>
      rw [removeFull, List.filter_cons]
      cases h : isFullRow r <;> simp [h, ih]

/-- The scan counts exactly the full rows. -/
theorem removeFull_snd (b : Board) :
    (removeFull b).2 = (b.filter fun r => isFullRow r).length := by
  induction b with
  | nil => rfl
  | cons r rest ih =>
      rw [removeFull, List.filter_cons]
      cases h : isFullRow r <;> simp [h, ih]

/-- Settled cells over a concatenation add up. -/
theorem cellCount_append (a b : Board) :
    cellCount (a ++ b) = cellCount a + cellCount b := by
  simp [cellCount]

/-- Empty rows contribute no settled cells. -/
theorem cellCount_replicate_empty (k : Nat) :
    cellCount (List.replicate k emptyRow) = 0 := by
  induction k with
  | zero => rfl
  | succ n ih =>
      rw [List.replicate_succ]
      show cellCount (emptyRow :: List.replicate n emptyRow) = 0
      simp only [cellCount, List.map_cons, List.sum_cons] at ih ⊢
      rw [ih]
      decide

/-- A full row of width 10 holds exactly 10 settled cells. -/
theorem rowCount_full (r : List (Option BlockType)) (h : isFullRow r = true)
    (hl : r.length = 10) : rowCount r = 10 := by
  rw [isFullRow, List.all_eq_true] at h
  rw [rowCount, List.filter_eq_self.mpr h, hl]

/-- Splitting the settled-cell count along the full/non-full partition. -/
theorem cellCount_partition (b : Board) (hw : ∀ r ∈ b, r.length = 10) :
    cellCount (b.filter fun r => !(isFullRow r))
      + 10 * (b.filter fun r => isFullRow r).length = cellCount b := by
  induction b with
  | nil => rfl
  | cons r rest ih =>
      have hr : r.length = 10 := hw r (List.mem_cons_self r rest)
      have hrest : ∀ q ∈ rest, q.length = 10 :=
        fun q hq => hw q (List.mem_cons_of_mem r hq)
      have ih' := ih hrest
      rw [List.filter_cons, List.filter_cons]
      cases h : isFullRow r
      · simp only [Bool.not_false, if_pos, if_neg]
        show cellCount (r :: List.filter (fun q => !(isFullRow q)) rest)
            + 10 * (List.filter (fun q => isFullRow q) rest).length
            = cellCount (r :: rest)
        simp only [cellCount, List.map_cons, List.sum_cons] at ih' ⊢
        omega
      · simp only [Bool.not_true, if_neg, if_pos]
        show cellCount (List.filter (fun q => !(isFullRow q)) rest)
            + 10 * (r :: List.filter (fun q => isFullRow q) rest).length
            = cellCount (r :: rest)
        have hfull := rowCount_full r h hr
        simp only [cellCount, List.map_cons, List.sum_cons, List.length_cons] at ih' ⊢
        omega

/-- Claim C1: `clear_full_lines` removes exactly the full rows; the non-full
rows keep their contents and order at the bottom, the removed rows reappear as
empty rows at the top, the row count is preserved, and the settled-cell count
drops by exactly 10 cells per removed row.  The final conjunct ties the game
method to the board-level function (when nothing is removed the method leaves
`board` untouched, which coincides with the rebuilt board). -/
theorem clear_full_lines_spec (board : Board) (hw : ∀ r ∈ board, r.length = 10) :
    (clearBoard board).2 = (board.filter fun r => isFullRow r).length ∧
    (clearBoard board).1
      = List.replicate (clearBoard board).2 emptyRow
        ++ board.filter (fun r => !(isFullRow r)) ∧
    (clearBoard board).1.length = board.length ∧
    cellCount (clearBoard board).1 + 10 * (clearBoard board).2 = cellCount board ∧
    ∀ g : Game, (Game.clear_full_lines g).board = (clearBoard g.board).1 := by
  have hsnd : (clearBoard board).2 = (board.filter fun r => isFullRow r).length := by
    rw [clearBoard]
    exact removeFull_snd board
  have hfst : (clearBoard board).1
      = List.replicate (clearBoard board).2 emptyRow
        ++ board.filter (fun r => !(isFullRow r)) := by
    rw [clearBoard]
    rw [removeFull_fst board]
  refine ⟨hsnd, hfst, ?_, ?_, ?_⟩
  · rw [hfst, List.length_append, List.length_replicate, hsnd]
    have h1 : ∀ b : Board, (b.filter fun r => isFullRow r).length
        + (b.filter fun r => !(isFullRow r)).length = b.length := by
      intro b
      induction b with
      | nil => rfl
      | cons r rest ih =>
          rw [List.filter_cons, List.filter_cons]
          cases h : isFullRow r
          · rw [if_neg (by decide : ¬ (false = true)),
              if_pos (by decide : (!false) = true), List.length_cons,
              List.length_cons]
            omega
          · rw [if_pos (by decide : (true = true)),
              if_neg (by decide : ¬ ((!true) = true)), List.length_cons,
              List.length_cons]
            omega
    have := h1 board
    omega
  · rw [hfst, cellCount_append, cellCount_replicate_empty, hsnd,
      Nat.zero_add, cellCount_partition board hw]
  · intro g
    simp only [Game.clear_full_lines]
    rcases hn : (clearBoard g.board).2 with _ | n
    · rw [if_neg (by omega : ¬ 0 < 0)]
      have h0 : (removeFull g.board).2 = 0 := hn
      have hnil : (g.board.filter fun r => isFullRow r) = [] := by
        refine List.eq_nil_of_length_eq_zero ?_
        rw [← removeFull_snd]
        exact h0
      have hall : ∀ r ∈ g.board, (!(isFullRow r)) = true := by
        intro r hr
        rcases hf : isFullRow r with _ | _
        · rfl
        · exfalso
          have hmem : r ∈ (g.board.filter fun q => isFullRow q) :=
            List.mem_filter.mpr ⟨hr, hf⟩
          rw [hnil] at hmem
          exact absurd hmem (List.not_mem_nil r)
      have hcb : (clearBoard g.board).1
          = List.replicate (removeFull g.board).2 emptyRow
            ++ (removeFull g.board).1 := rfl
      rw [hcb, h0, removeFull_fst, List.replicate_zero, List.nil_append,
        List.filter_eq_self.mpr hall]
    · rw [if_pos (Nat.succ_pos n)]
      split <;> rfl

/-- Witness for C1 at a concrete board with two full rows. -/
theorem clear_full_lines_spec_wit :
    (clearBoard wBoard).2 = (wBoard.filter fun r => isFullRow r).length ∧
    (clearBoard wBoard).1
      = List.replicate (clearBoard wBoard).2 emptyRow
        ++ wBoard.filter (fun r => !(isFullRow r)) ∧
    cellCount (clearBoard wBoard).1 + 10 * (clearBoard wBoard).2
      = cellCount wBoard := by
  have h := clear_full_lines_spec wBoard (by decide)
  exact ⟨h.1, h.2.1, h.2.2.2.1⟩

/-- Claim C3: when the game is paused or over, every gameplay command — the
gating lives in the key-event dispatch of the main loop for the movement,
rotation and drop commands, and inside `step` itself for gravity — leaves the
game state unchanged; only the pause toggle and reset still act (each provably
changes the state). -/
theorem paused_or_over_noops (g : Game) (elapsed : Nat)
    (h : g.paused = true ∨ g.game_over = true) :
    onMoveLeft g = g ∧ onMoveRight g = g ∧ onMoveDown g = g ∧
    onHardDrop g = g ∧ onRotateCW g = g ∧ onRotateCCW g = g ∧
    Game.step g elapsed = g ∧ onPauseToggle g ≠ g ∧ onReset g ≠ g := by
  have hcond : (!g.paused && !g.game_over) = false := by
    rcases h with h | h <;> rw [h] <;> simp
  have hstep : (g.paused || g.game_over) = true := by
    rcases h with h | h <;> rw [h] <;> simp
  refine ⟨?_, ?_, ?_, ?_, ?_, ?_, ?_, ?_, ?_⟩
  · rw [onMoveLeft, hcond]
    rfl
  · rw [onMoveRight, hcond]
    rfl
  · rw [onMoveDown, hcond]
    rfl
  · rw [onHardDrop, hcond]
    rfl
  · rw [onRotateCW, hcond]
    rfl
  · rw [onRotateCCW, hcond]
    rfl
  · rw [Game.step, hstep]
    rfl
  · intro he
    have hp := congrArg Game.paused he
    have hp' : (!g.paused) = g.paused := hp
    exact (Bool.not_ne_self g.paused) hp'
  · intro he
    rcases h with h | h
    · have hp := congrArg Game.paused he
      have hp' : false = g.paused := hp
      rw [h] at hp'
      exact absurd hp' (by decide)
    · have hp := congrArg Game.game_over he
      have hp' : false = g.game_over := hp
      rw [h] at hp'
      exact absurd hp' (by decide)

/-- Witness for C3 at the concrete paused game `gPaused`. -/
theorem paused_or_over_noops_wit :
    onMoveLeft gPaused = gPaused ∧ onMoveRight gPaused = gPaused ∧
    onMoveDown gPaused = gPaused ∧ onHardDrop gPaused = gPaused ∧
    onRotateCW gPaused = gPaused ∧ onRotateCCW gPaused = gPaused ∧
    Game.step gPaused 700 = gPaused ∧ onPauseToggle gPaused ≠ gPaused ∧
    onReset gPaused ≠ gPaused :=
  paused_or_over_noops gPaused 700 (Or.inl rfl)

/-- Spawning touches only the active piece, the lookahead, the stream and the
game-over flag. -/
theorem spawn_next_counts (g : Game) :
    (Game.spawn_next g).score = g.score ∧
    (Game.spawn_next g).lines_cleared = g.lines_cleared ∧
    (Game.spawn_next g).level = g.level ∧
    (Game.spawn_next g).gravity_interval = g.gravity_interval ∧
    (Game.spawn_next g).board = g.board := by
  simp only [Game.spawn_next]
  split <;> exact ⟨rfl, rfl, rfl, rfl, rfl⟩

/-- How one call of the game-level `clear_full_lines` changes the counters when
`n ≥ 1` rows are removed: score grows by the award, lines by `n`, the level is
rederived, and the gravity interval is recomputed exactly when the level
changed. -/
theorem clear_counts (g : Game) (n : Nat)
    (h1 : (clearBoard g.board).2 = n) (h2 : 1 ≤ n) :
    (Game.clear_full_lines g).score
      = g.score
        + (if n = 1 then 100 else if n = 2 then 300 else if n = 3 then 500 else 800)
          * g.level ∧
    (Game.clear_full_lines g).lines_cleared = g.lines_cleared + n ∧
    (Game.clear_full_lines g).level = (g.lines_cleared + n) / 10 + 1 ∧
    ((g.lines_cleared + n) / 10 + 1 ≠ g.level →
      (Game.clear_full_lines g).gravity_interval
        = interval_for_level ((g.lines_cleared + n) / 10 + 1)) := by
  rcases n with _ | _ | _ | _ | m
  · omega
  · simp only [Game.clear_full_lines, h1]
    rw [if_pos (by omega : 0 < 1)]
    split
    · exact ⟨rfl, rfl, rfl, fun _ => rfl⟩
    · case isFalse hne =>
        exact ⟨rfl, rfl, (not_ne_iff.mp hne).symm, fun hdiff => absurd hdiff hne⟩
  · simp only [Game.clear_full_lines, h1]
    rw [if_pos (by omega : 0 < 2)]
    split
    · exact ⟨rfl, rfl, rfl, fun _ => rfl⟩
    · case isFalse hne =>
        exact ⟨rfl, rfl, (not_ne_iff.mp hne).symm, fun hdiff => absurd hdiff hne⟩
  · simp only [Game.clear_full_lines, h1]
    rw [if_pos (by omega : 0 < 3)]
    split
    · exact ⟨rfl, rfl, rfl, fun _ => rfl⟩
    · case isFalse hne =>
        exact ⟨rfl, rfl, (not_ne_iff.mp hne).symm, fun hdiff => absurd hdiff hne⟩
  · simp only [Game.clear_full_lines, h1]
    rw [if_pos (by omega : 0 < m + 4),
      if_neg (by omega : ¬ (m + 4 = 1)), if_neg (by omega : ¬ (m + 4 = 2)),
      if_neg (by omega : ¬ (m + 4 = 3))]
    split
    · exact ⟨rfl, rfl, rfl, fun _ => rfl⟩
    · case isFalse hne =>
        exact ⟨rfl, rfl, (not_ne_iff.mp hne).symm, fun hdiff => absurd hdiff hne⟩

/-- Claim C4: a lock that clears `n ≥ 1` rows raises the score by exactly
`level × (100 / 300 / 500 / 800 for n = 1 / 2 / 3 / ≥4)`, applied once. -/
theorem lock_scoring_spec (g : Game) (n : Nat)
    (h1 : (clearBoard (writeCells g.board g.current.cells g.current.kind)).2 = n)
    (h2 : 1 ≤ n) :
    (Game.lock_piece g).score =
      g.score + g.level *
        (if n = 1 then 100 else if n = 2 then 300 else if n = 3 then 500 else 800) := by
  rw [Game.lock_piece, (spawn_next_counts _).1]
  have hc := (clear_counts
    { g with board := writeCells g.board g.current.cells g.current.kind } n h1 h2).1
  rw [hc, Nat.mul_comm g.level]

/-- Witness for C4: locking the horizontal I piece of `gScore1` clears exactly
one row for 100 points at level 1, and locking the vertical I piece of
`gScore4` clears four rows at once for 800 points. -/
theorem lock_scoring_spec_wit :
    (Game.lock_piece gScore1).score =
      gScore1.score + gScore1.level *
        (if 1 = 1 then 100 else if 1 = 2 then 300 else if 1 = 3 then 500 else 800) ∧
    (Game.lock_piece gScore4).score =
      gScore4.score + gScore4.level *
        (if 4 = 1 then 100 else if 4 = 2 then 300 else if 4 = 3 then 500 else 800) :=
  ⟨lock_scoring_spec gScore1 1 (by decide) (by decide),
   lock_scoring_spec gScore4 4 (by decide) (by decide)⟩

/-- Claim C5: after a lock that clears `n ≥ 1` rows the level equals
`(lines_cleared + n) / 10 + 1`, and whenever that value differs from the old
level the gravity interval is recomputed from the new level. -/
theorem lock_level_spec (g : Game) (n : Nat)
    (h1 : (clearBoard (writeCells g.board g.current.cells g.current.kind)).2 = n)
    (h2 : 1 ≤ n) :
    (Game.lock_piece g).level = (g.lines_cleared + n) / 10 + 1 ∧
    ((g.lines_cleared + n) / 10 + 1 ≠ g.level →
      (Game.lock_piece g).gravity_interval
        = interval_for_level ((g.lines_cleared + n) / 10 + 1)) := by
  have hc := clear_counts
    { g with board := writeCells g.board g.current.cells g.current.kind } n h1 h2
  constructor
  · rw [Game.lock_piece, (spawn_next_counts _).2.2.1]
    exact hc.2.2.1
  · intro hdiff
    rw [Game.lock_piece, (spawn_next_counts _).2.2.2.1]
    exact hc.2.2.2 hdiff

/-- Witness for C5: `gLevel` has 9 lines cleared at level 1; one more cleared
row yields level 2 and a 650ms gravity interval. -/
theorem lock_level_spec_wit :
    (Game.lock_piece gLevel).level = 2 ∧
    (Game.lock_piece gLevel).gravity_interval = 650 := by
  have h := lock_level_spec gLevel 1 (by decide) (by decide)
  exact ⟨h.1.trans (by decide), (h.2 (by decide)).trans (by decide)⟩

/-- Claim C7: both rotations compute the rotated orientation on a copy and try
the offsets (0,0), (−1,0), (+1,0), (0,−1) in that fixed order, committing the
rotation together with the first non-colliding offset; if all four trials
collide the whole state — in particular the piece's rotation index and
position — is left unchanged. -/
theorem rotate_kick_spec (g : Game) :
    (Game.rotate_cw g =
      (let t := ActivePiece.rotate_cw g.current
       if Game.check_collision g t 0 0 = false then { g with current := t }
       else if Game.check_collision g t (-1) 0 = false then
         { g with current := { t with x := t.x + (-1) } }
       else if Game.check_collision g t 1 0 = false then
         { g with current := { t with x := t.x + 1 } }
       else if Game.check_collision g t 0 (-1) = false then
         { g with current := { t with y := t.y + (-1) } }
       else g)) ∧
    (Game.rotate_ccw g =
      (let t := ActivePiece.rotate_ccw g.current
       if Game.check_collision g t 0 0 = false then { g with current := t }
       else if Game.check_collision g t (-1) 0 = false then
         { g with current := { t with x := t.x + (-1) } }
       else if Game.check_collision g t 1 0 = false then
         { g with current := { t with x := t.x + 1 } }
       else if Game.check_collision g t 0 (-1) = false then
         { g with current := { t with y := t.y + (-1) } }
       else g)) := by
  constructor
  · show Game.rotate_cw g = _
    rw [Game.rotate_cw]
    simp only [kicks, List.find?]
    cases h0 : Game.check_collision g (ActivePiece.rotate_cw g.current) 0 0 <;>
      cases h1 : Game.check_collision g (ActivePiece.rotate_cw g.current) (-1) 0 <;>
      cases h2 : Game.check_collision g (ActivePiece.rotate_cw g.current) 1 0 <;>
      cases h3 : Game.check_collision g (ActivePiece.rotate_cw g.current) 0 (-1) <;>
      simp [h0, h1, h2, h3]
  · show Game.rotate_ccw g = _
    rw [Game.rotate_ccw]
    simp only [kicks, List.find?]
    cases h0 : Game.check_collision g (ActivePiece.rotate_ccw g.current) 0 0 <;>
      cases h1 : Game.check_collision g (ActivePiece.rotate_ccw g.current) (-1) 0 <;>
      cases h2 : Game.check_collision g (ActivePiece.rotate_ccw g.current) 1 0 <;>
      cases h3 : Game.check_collision g (ActivePiece.rotate_ccw g.current) 0 (-1) <;>
      simp [h0, h1, h2, h3]

/-- Claim C8: when the downward step is free, `move_down` descends one row and
awards exactly 1 point; when it is blocked, `move_down` locks immediately,
which writes the piece, clears full lines and spawns the next piece. -/
theorem move_down_spec (g : Game) :
    (Game.check_collision g g.current 0 1 = false →
      Game.move_down g =
        { g with
            current := { g.current with y := g.current.y + 1 },
            score := g.score + 1 }) ∧
    (Game.check_collision g g.current 0 1 = true →
      Game.move_down g = Game.lock_piece g ∧
      Game.move_down g =
        Game.spawn_next (Game.clear_full_lines
          { g with board := writeCells g.board g.current.cells g.current.kind })) := by
  constructor
  · intro h
    rw [Game.move_down, if_pos h]
  · intro h
    have hne : ¬ (Game.check_collision g g.current 0 1 = false) := by
      rw [h]
      decide
    rw [Game.move_down, if_neg hne]
    exact ⟨rfl, rfl⟩

/-- Witness for C8: the free piece of `gFree` descends and scores one point;
the floor-resting piece of `gBlocked` locks instead. -/
theorem move_down_spec_wit :
    Game.move_down gFree =
      { gFree with
          current := { gFree.current with y := gFree.current.y + 1 },
          score := gFree.score + 1 } ∧
    Game.move_down gBlocked = Game.lock_piece gBlocked :=
  ⟨(move_down_spec gFree).1 (by decide),
   ((move_down_spec gBlocked).2 (by decide)).1⟩

/-- The level/lines relation holds for a fresh game: level 1, no lines. -/
theorem linesLevelInv_new (stream : List BlockType) :
    LinesLevelInv (Game.new stream) := by
  show (1 : Nat) = 0 / 10 + 1
  decide

/-- Clearing lines never decreases the counters and preserves the level/lines
relation (which it needs: the level is recomputed from the new line total). -/
theorem clear_mono (g : Game) (hInv : LinesLevelInv g) :
    monoLe g (Game.clear_full_lines g) ∧ LinesLevelInv (Game.clear_full_lines g) := by
  rcases hn : (clearBoard g.board).2 with _ | n
  · have hid : Game.clear_full_lines g = g := by
      simp only [Game.clear_full_lines, hn]
      rw [if_neg (by omega : ¬ 0 < 0)]
    rw [hid]
    exact ⟨⟨le_refl _, le_refl _, le_refl _⟩, hInv⟩
  · obtain ⟨hs, hl, hlev, _⟩ := clear_counts g (n + 1) hn (by omega)
    refine ⟨⟨?_, ?_, ?_⟩, ?_⟩
    · rw [hs]
      exact Nat.le_add_right _ _
    · rw [hl]
      exact Nat.le_add_right _ _
    · rw [hlev, hInv]
      have hd : g.lines_cleared / 10 ≤ (g.lines_cleared + (n + 1)) / 10 :=
        Nat.div_le_div_right (Nat.le_add_right _ _)
      omega
    · show (Game.clear_full_lines g).level
        = (Game.clear_full_lines g).lines_cleared / 10 + 1
      rw [hlev, hl]

/-- Locking never decreases the counters and preserves the level/lines
relation. -/
theorem lock_mono (g : Game) (hInv : LinesLevelInv g) :
    monoLe g (Game.lock_piece g) ∧ LinesLevelInv (Game.lock_piece g) := by
  have hg1 : LinesLevelInv
      { g with board := writeCells g.board g.current.cells g.current.kind } := hInv
  obtain ⟨hm, hi⟩ := clear_mono _ hg1
  have hsp := spawn_next_counts (Game.clear_full_lines
    { g with board := writeCells g.board g.current.cells g.current.kind })
  refine ⟨⟨?_, ?_, ?_⟩, ?_⟩
  · rw [Game.lock_piece, hsp.1]
    exact hm.1
  · rw [Game.lock_piece, hsp.2.1]
    exact hm.2.1
  · rw [Game.lock_piece, hsp.2.2.1]
    exact hm.2.2
  · show (Game.lock_piece g).level = (Game.lock_piece g).lines_cleared / 10 + 1
    rw [Game.lock_piece, hsp.2.1, hsp.2.2.1]
    exact hi

/-- Claim C9: under the engine's level/lines invariant, every operation except
reset — horizontal moves, soft drop, hard drop, gravity step, both rotations,
locking and line clearing — leaves score, lines cleared and level each at least
their previous values. -/
theorem counters_monotone (g : Game) (hInv : LinesLevelInv g) :
    monoLe g (Game.move_left g) ∧ monoLe g (Game.move_right g) ∧
    monoLe g (Game.move_down g) ∧ monoLe g (Game.hard_drop g) ∧
    (∀ elapsed : Nat, monoLe g (Game.step g elapsed)) ∧
    monoLe g (Game.rotate_cw g) ∧ monoLe g (Game.rotate_ccw g) ∧
    monoLe g (Game.lock_piece g) ∧ monoLe g (Game.clear_full_lines g) := by
  have hlock := (lock_mono g hInv).1
  have hclear := (clear_mono g hInv).1
  refine ⟨?_, ?_, ?_, ?_, ?_, ?_, ?_, hlock, hclear⟩
  · rw [Game.move_left]
    split
    · exact ⟨le_refl _, le_refl _, le_refl _⟩
    · exact ⟨le_refl _, le_refl _, le_refl _⟩
  · rw [Game.move_right]
    split
    · exact ⟨le_refl _, le_refl _, le_refl _⟩
    · exact ⟨le_refl _, le_refl _, le_refl _⟩
  · rw [Game.move_down]
    split
    · exact ⟨Nat.le_add_right _ _, le_refl _, le_refl _⟩
    · exact hlock
  · rw [Game.hard_drop]
    have hInv' : LinesLevelInv { g with current := hardDropPiece g g.current } := hInv
    exact (lock_mono { g with current := hardDropPiece g g.current } hInv').1
  · intro elapsed
    rw [Game.step]
    split
    · exact ⟨le_refl _, le_refl _, le_refl _⟩
    · split
      · split
        · exact ⟨le_refl _, le_refl _, le_refl _⟩
        · exact hlock
      · exact ⟨le_refl _, le_refl _, le_refl _⟩
  · rw [Game.rotate_cw]
    cases hf : kicks.find? (fun k =>
        !(Game.check_collision g (ActivePiece.rotate_cw g.current) k.1 k.2)) with
    | none => exact ⟨le_refl _, le_refl _, le_refl _⟩
    | some k => exact ⟨le_refl _, le_refl _, le_refl _⟩
  · rw [Game.rotate_ccw]
    cases hf : kicks.find? (fun k =>
        !(Game.check_collision g (ActivePiece.rotate_ccw g.current) k.1 k.2)) with
    | none => exact ⟨le_refl _, le_refl _, le_refl _⟩
    | some k => exact ⟨le_refl _, le_refl _, le_refl _⟩

/-- Witness for C9 at the concrete game `gFree` (whose invariant holds). -/
theorem counters_monotone_wit :
    monoLe gFree (Game.move_left gFree) ∧ monoLe gFree (Game.move_right gFree) ∧
    monoLe gFree (Game.move_down gFree) ∧ monoLe gFree (Game.hard_drop gFree) ∧
    monoLe gFree (Game.step gFree 700) ∧
    monoLe gFree (Game.rotate_cw gFree) ∧ monoLe gFree (Game.rotate_ccw gFree) ∧
    monoLe gFree (Game.lock_piece gFree) ∧
    monoLe gFree (Game.clear_full_lines gFree) := by
  have h := counters_monotone gFree (by decide)
  exact ⟨h.1, h.2.1, h.2.2.1, h.2.2.2.1, h.2.2.2.2.1 700, h.2.2.2.2.2.1,
    h.2.2.2.2.2.2.1, h.2.2.2.2.2.2.2.1, h.2.2.2.2.2.2.2.2⟩

end Tetris
